import Mathlib

/-!
# Gilgamesh / Squared (^2) language core: shallow embedding

A shallow embedding of the lexer, parser and interpreter found in
`src/mesh/parser.js` (the "Gilgamesh" dialect: classes `Lexer`, `Parser`,
`Interpreter`), together with theorems settling the specification claims.

Modelling conventions:
* JavaScript numbers are modelled by `JNum`: an exact rational together with
  `NaN` and signed infinities.  Double-precision rounding is not modelled; all
  programs appearing in the claims compute with small integers, where doubles
  are exact.
* JavaScript `undefined` and `null` are distinct values (`Value.undef`,
  `Value.vnull`).  A `Map.get` miss yields `undefined`, as in JS.
* Mutable `Scope` objects are modelled by a heap of frames (`St.frames`);
  a scope reference is an index into that heap.  `new Scope(parent)`
  allocates a fresh frame at the end of the heap.
* The interpreter's `async`/`await` scheduling, the `opCounter` cooperative
  yields and the externally-settable `stop` flag are timing artefacts: during
  a `run` call `stop` is `false` throughout, so the embedding omits them.
* Unbounded recursion (`while`, user function calls, `eval`) is handled by an
  explicit fuel parameter; exhaustion is the distinguished outcome
  `Res.timeout`, kept separate from genuine runtime errors (`Res.err`).
-/

namespace Gilgamesh

/-- Exact rationals with a kernel-computable normalization (Mathlib's `ℚ`
uses a gcd that the kernel cannot reduce, which would block `decide`/`rfl`
evaluation of concrete programs).  Values built through `MRat.mk` are always
in lowest terms with a positive denominator, so structural equality is
value equality. -/
structure MRat where
  num : Int
  den : Nat
  deriving DecidableEq, Repr

namespace MRat

/-- Fuel-based Euclidean gcd (structural recursion, kernel-reducible). -/
def gcdF : Nat → Nat → Nat → Nat
  | 0, a, b => a + b
  | fuel + 1, a, b => if a = 0 then b else gcdF fuel (b % a) a

/-- Gcd with enough fuel to terminate. -/
def gcd (a b : Nat) : Nat := gcdF (a + b + 1) a b

/-- Build a normalized rational from numerator and (nonzero) denominator. -/
def norm (n : Int) (d : Nat) : MRat :=
  if d = 0 then ⟨0, 1⟩
  else
    let g := gcd n.natAbs d
    ⟨n / (g : Int), d / g⟩

instance : OfNat MRat n := ⟨⟨n, 1⟩⟩

/-- Embed an integer. -/
def ofInt (n : Int) : MRat := ⟨n, 1⟩

def isZero (x : MRat) : Bool := x.num == 0

def isNeg (x : MRat) : Bool := decide (x.num < 0)

def add (x y : MRat) : MRat := norm (x.num * y.den + y.num * x.den) (x.den * y.den)

def sub (x y : MRat) : MRat := norm (x.num * y.den - y.num * x.den) (x.den * y.den)

def mul (x y : MRat) : MRat := norm (x.num * y.num) (x.den * y.den)

/-- Division (the caller guards against a zero divisor). -/
def div (x y : MRat) : MRat :=
  norm (x.num * y.den * (if y.num < 0 then -1 else 1)) (x.den * y.num.natAbs)

def ltb (x y : MRat) : Bool := decide (x.num * y.den < y.num * x.den)

def leb (x y : MRat) : Bool := decide (x.num * y.den ≤ y.num * x.den)

def eqb (x y : MRat) : Bool := decide (x.num * y.den = y.num * x.den)

end MRat

/-- JavaScript numbers: exact rationals plus NaN and signed infinities
(double-precision rounding is not modelled). -/
inductive JNum where
  | q (x : MRat)
  | nan
  | inf (neg : Bool)
  deriving DecidableEq, Repr

namespace JNum

/-- JS addition on numbers (exact; rounding not modelled). -/
def add : JNum → JNum → JNum
  | q a, q b => q (a.add b)
  | inf s, inf t => if s = t then inf s else nan
  | inf s, q _ => inf s
  | q _, inf s => inf s
  | _, _ => nan

/-- JS subtraction. -/
def sub : JNum → JNum → JNum
  | q a, q b => q (a.sub b)
  | inf s, inf t => if s = t then nan else inf s
  | inf s, q _ => inf s
  | q _, inf s => inf (!s)
  | _, _ => nan

/-- JS multiplication. -/
def mul : JNum → JNum → JNum
  | q a, q b => q (a.mul b)
  | inf s, inf t => inf (s != t)
  | inf s, q b => if b.isZero then nan else inf (s != b.isNeg)
  | q a, inf s => if a.isZero then nan else inf (s != a.isNeg)
  | _, _ => nan

/-- JS division: division by zero yields an infinity (or NaN for `0/0`). -/
def div : JNum → JNum → JNum
  | q a, q b =>
      if b.isZero then (if a.isZero then nan else inf a.isNeg)
      else q (a.div b)
  | inf _, inf _ => nan
  | inf s, q b => inf (s != b.isNeg)
  | q _, inf _ => q 0
  | _, _ => nan

/-- JS `<` on numbers: any comparison with NaN is false. -/
def lt : JNum → JNum → Bool
  | q a, q b => a.ltb b
  | q _, inf s => !s
  | inf s, q _ => s
  | inf s, inf t => s && !t
  | _, _ => false

/-- JS `<=` on numbers: any comparison with NaN is false. -/
def le : JNum → JNum → Bool
  | q a, q b => a.leb b
  | q _, inf s => !s
  | inf s, q _ => s
  | inf s, inf t => s || (!s && !t)
  | _, _ => false

/-- JS numeric equality: NaN is not equal to anything. -/
def eqb : JNum → JNum → Bool
  | q a, q b => a.eqb b
  | inf s, inf t => s = t
  | _, _ => false

/-- Is this number falsy (`0`, `-0` or `NaN`)? -/
def falsy : JNum → Bool
  | q a => a.isZero
  | nan => true
  | inf _ => false

end JNum

/-- Literal payloads carried by `Literal` AST nodes. -/
inductive Lit where
  | num (n : JNum)
  | str (s : String)
  | bool (b : Bool)
  deriving DecidableEq, Repr

mutual
/-- Expression AST nodes produced by `Parser` in `src/mesh/parser.js`. -/
inductive Expr where
  | lit (value : Lit)
  | ident (name : String)
  | arrayLit (elements : List Expr)
  | bin (left : Expr) (op : String) (right : Expr)
  | call (callee : Expr) (args : List Expr)
  | member (object : Expr) (property : String)
  | evalCall (argument : Expr)

/-- Statement AST nodes produced by `Parser` in `src/mesh/parser.js`.
The `line` annotation attached by `parseStatement` is only decorative
(never read by the interpreter) and is not modelled. -/
inductive Stmt where
  | importStmt (moduleName : String)
  | funcDecl (name : String) (params : List String) (body : List Stmt)
  | objDef (name : String) (parent : Option String) (properties : List Stmt)
  | assign (name : String) (op : String) (value : Expr)
  | ifStmt (test : Expr) (consequent : List Stmt)
      (elifs : List (Expr × List Stmt)) (alternate : Option (List Stmt))
  | whileStmt (test : Expr) (body : List Stmt)
  | forStmt (iterator : String) (start : Expr) (stop : Expr) (body : List Stmt)
  | returnStmt (value : Expr)
  | breakStmt
  | continueStmt
  | exprStmt (expression : Expr)
end

/-- A parsed program: `{type: 'Program', body}`. -/
abbrev Program := List Stmt

/-- Runtime values of the interpreter. -/
inductive Value where
  | undef
  | vnull
  | bool (b : Bool)
  | num (n : JNum)
  | str (s : String)
  | arr (elements : List Value)
  | obj (entries : List (String × Value))
  | closure (params : List String) (body : List Stmt) (sid : Nat)
  | builtin (name : String)

/-- Insertion-ordered string map, as a JS `Map`: lookup. -/
def mapGet (m : List (String × Value)) (k : String) : Option Value :=
  match m with
  | [] => none
  | (k', v) :: rest => if k' = k then some v else mapGet rest k

/-- JS `Map.has`. -/
def mapHas (m : List (String × Value)) (k : String) : Bool :=
  match m with
  | [] => false
  | (k', _) :: rest => k' = k || mapHas rest k

/-- JS `Map.set`: replaces an existing entry in place, otherwise appends. -/
def mapSet (m : List (String × Value)) (k : String) (v : Value) :
    List (String × Value) :=
  match m with
  | [] => [(k, v)]
  | (k', v') :: rest =>
      if k' = k then (k', v) :: rest else (k', v') :: mapSet rest k v

/-- JS `Map.delete`. -/
def mapDelete (m : List (String × Value)) (k : String) :
    List (String × Value) :=
  match m with
  | [] => []
  | (k', v') :: rest => if k' = k then rest else (k', v') :: mapDelete rest k

/-- One `Scope` object: its own bindings plus an optional parent reference. -/
structure Frame where
  values : List (String × Value)
  parent : Option Nat

/-- Interpreter state: the heap of scope frames (index 0 is `this.globals`),
the `eval` memoization cache, and the `console.log` output of `print`. -/
structure St where
  frames : List Frame
  evalCache : List (String × Program)
  output : List (List Value)

/-- The frame at a heap index (total; a dangling index yields an empty frame,
which the interpreter never creates). -/
def frameAt (σ : St) (sid : Nat) : Frame :=
  (σ.frames.getD sid ⟨[], none⟩)

/-- Replace the values of the frame at index `i`. -/
def setFrameValues (σ : St) (i : Nat) (m : List (String × Value)) : St :=
  { σ with frames := σ.frames.set i { frameAt σ i with values := m } }

/-- `Scope.get`, fuel-bounded: walk outward through parents; a miss yields
JS `undefined`. -/
def scopeGetAux : Nat → St → Nat → String → Value
  | 0, _, _, _ => .undef
  | fuel + 1, σ, sid, name =>
      let f := frameAt σ sid
      match mapGet f.values name with
      | some v => v
      | none =>
          match f.parent with
          | some p => scopeGetAux fuel σ p name
          | none => Value.undef

/-- `Scope.get` from frame `sid`.  The interpreter only creates frames whose
parent index is strictly smaller, so fuel `sid + 1` always suffices. -/
def scopeGet (σ : St) (sid : Nat) (name : String) : Value :=
  scopeGetAux (sid + 1) σ sid name

/-- `Scope.assign`, fuel-bounded: mutate the binding in the nearest frame of
the chain that has one; report `false` when no frame has it. -/
def scopeAssignAux : Nat → St → Nat → String → Value → Bool × St
  | 0, σ, _, _, _ => (false, σ)
  | fuel + 1, σ, sid, name, v =>
      let f := frameAt σ sid
      if mapHas f.values name then
        (true, setFrameValues σ sid (mapSet f.values name v))
      else
        match f.parent with
        | some p => scopeAssignAux fuel σ p name v
        | none => (false, σ)

/-- `Scope.assign` from frame `sid`. -/
def scopeAssign (σ : St) (sid : Nat) (name : String) (v : Value) : Bool × St :=
  scopeAssignAux (sid + 1) σ sid name v

/-- `Scope.set`: bind in this frame only. -/
def scopeSet (σ : St) (sid : Nat) (name : String) (v : Value) : St :=
  setFrameValues σ sid (mapSet (frameAt σ sid).values name v)

/-- Delete a key from the frame at `sid` (used for the `__break__` and
`__continue__` sentinels in `WhileStatement`). -/
def scopeDelete (σ : St) (sid : Nat) (name : String) : St :=
  setFrameValues σ sid (mapDelete (frameAt σ sid).values name)

/-- `new Scope(parent)`: allocate a fresh frame; returns its index. -/
def allocScope (σ : St) (parent : Option Nat) (init : List (String × Value)) :
    Nat × St :=
  (σ.frames.length, { σ with frames := σ.frames ++ [⟨init, parent⟩] })

/-- The nearest frame (walking outward from `sid`) whose own bindings contain
`name` — the spec's "walk outward from the innermost frame to the root". -/
def boundFrameAux : Nat → St → Nat → String → Option Nat
  | 0, _, _, _ => none
  | fuel + 1, σ, sid, name =>
      let f := frameAt σ sid
      if mapHas f.values name then some sid
      else
        match f.parent with
        | some p => boundFrameAux fuel σ p name
        | none => none

/-! ## Lexer (`src/mesh/parser.js`, class `Lexer`)

`tokenize` splits the input on `/\r?\n/`, skips blank and `--` comment
lines, maintains the indent stack (4-column tab expansion), and runs
`tokenizeLine` — a single JS regex applied repeatedly with `exec`, which
silently skips characters no alternative matches.  The embedding realises
the regex as an ordered-choice scanner over the same alternatives. -/

/-- Tokens emitted by the lexer.  `DEDENT`s produced by the end-of-input
drain carry no line number, matching `{ type: 'DEDENT' }`.  The value of a
`NUMBER` token is kept as a string, as in the source (the parser applies
`parseFloat` later). -/
inductive Tok where
  | INDENT (value : Nat) (line : Nat)
  | DEDENT (line : Option Nat)
  | NEWLINE (line : Nat)
  | NUMBER_LITERAL (value : JNum) (line : Nat)
  | STR_LITERAL (value : String) (line : Nat)
  | BOOL_LITERAL (value : Bool) (line : Nat)
  | OBJ_IDENTIFIER (value : String) (line : Nat)
  | IDENTIFIER (value : String) (line : Nat)
  | NUMBER (value : String) (line : Nat)
  | SYMBOL (value : String) (line : Nat)
  deriving DecidableEq, Repr

/-- `[a-zA-Z_]`. -/
def isAlphaU (c : Char) : Bool :=
  (decide ('a' ≤ c) && decide (c ≤ 'z')) ||
  (decide ('A' ≤ c) && decide (c ≤ 'Z')) || c == '_'

/-- `[0-9]`. -/
def isDigitC (c : Char) : Bool :=
  decide ('0' ≤ c) && decide (c ≤ '9')

/-- `[a-zA-Z0-9_]`. -/
def isAlnumU (c : Char) : Bool := isAlphaU c || isDigitC c

/-- The one-character symbol class `[=,.\+\-\*\/\(\)\[\]\{\}\<\>\!]`. -/
def symbolChars : List Char :=
  ['=', ',', '.', '+', '-', '*', '/', '(', ')', '[', ']', '{', '}', '<', '>', '!']

/-- Digit list to a natural number. -/
def digitsVal (ds : List Char) : ℕ :=
  ds.foldl (fun a c => a * 10 + (c.toNat - 48)) 0

/-- JS `parseFloat` restricted to the strings this lexer can produce
(optional sign, digits, optional fractional part; no exponent): parses the
longest numeric prefix, `NaN` when there is none. -/
def parseFloatJ (cs : List Char) : JNum :=
  let (neg, cs1) : Bool × List Char :=
    match cs with
    | '-' :: r => (true, r)
    | '+' :: r => (false, r)
    | r => (false, r)
  let d1 := cs1.takeWhile isDigitC
  let r1 := cs1.dropWhile isDigitC
  let d2 :=
    match r1 with
    | '.' :: r => r.takeWhile isDigitC
    | _ => []
  if d1 = [] ∧ d2 = [] then .nan
  else
    let n : Int := (digitsVal d1 * 10 ^ d2.length + digitsVal d2 : Nat)
    .q (MRat.norm (if neg then -n else n) (10 ^ d2.length))

/-- Alternative `--.*`: a comment consumes the rest of the line. -/
def matchComment : List Char → Option (List Char × List Char)
  | '-' :: '-' :: r => some ('-' :: '-' :: r, [])
  | _ => none

/-- Alternative `!(-?\d*\.?\d+)!`: an explicitly boxed numeric literal. -/
def matchBoxed : List Char → Option (List Char × List Char)
  | '!' :: cs1 =>
      let (sgn, cs2) : List Char × List Char :=
        match cs1 with
        | '-' :: r => (['-'], r)
        | r => ([], r)
      let d1 := cs2.takeWhile isDigitC
      let r1 := cs2.dropWhile isDigitC
      let (frac, r2) : List Char × List Char :=
        match r1 with
        | '.' :: r =>
            let d2 := r.takeWhile isDigitC
            if d2 = [] then ([], '.' :: r) else ('.' :: d2, r.dropWhile isDigitC)
        | r => ([], r)
      if d1 = [] ∧ frac = [] then none
      else
        match r2 with
        | '!' :: rest => some ('!' :: sgn ++ d1 ++ frac ++ ['!'], rest)
        | _ => none
  | _ => none

/-- Split at the first `"`: `some (before, after)` when one exists. -/
def findQuote : List Char → Option (List Char × List Char)
  | [] => none
  | c :: r =>
      if c = '"' then some ([], r)
      else
        match findQuote r with
        | some (a, b) => some (c :: a, b)
        | none => none

/-- Alternative `"[^"]*"`: a quoted string literal (no escapes). -/
def matchStringLit : List Char → Option (List Char × List Char)
  | '"' :: cs1 =>
      match findQuote cs1 with
      | some (a, b) => some ('"' :: a ++ ['"'], b)
      | none => none
  | _ => none

/-- Alternative `#[a-zA-Z_][a-zA-Z0-9_]*#`: a delimited object identifier. -/
def matchObjIdent : List Char → Option (List Char × List Char)
  | '#' :: c :: cs1 =>
      if isAlphaU c then
        match cs1.dropWhile isAlnumU with
        | '#' :: rest => some ('#' :: c :: cs1.takeWhile isAlnumU ++ ['#'], rest)
        | _ => none
      else none
  | _ => none

/-- The two-character operator alternatives, in regex order. -/
def twoCharOps : List (List Char) :=
  [['+', '='], ['-', '='], ['*', '='], ['/', '='],
   ['=', '='], ['!', '='], ['<', '='], ['>', '=']]

/-- Match one of the two-character operators. -/
def matchTwoChar (cs : List Char) : Option (List Char × List Char) :=
  match cs with
  | a :: b :: rest =>
      if twoCharOps.contains [a, b] then some ([a, b], rest) else none
  | _ => none

/-- Alternative `[a-zA-Z_][a-zA-Z0-9_]*`: a bare identifier. -/
def matchIdent : List Char → Option (List Char × List Char)
  | c :: r =>
      if isAlphaU c then some (c :: r.takeWhile isAlnumU, r.dropWhile isAlnumU)
      else none
  | _ => none

/-- Alternative `\d+`: a bare digit sequence. -/
def matchDigits : List Char → Option (List Char × List Char)
  | c :: r =>
      if isDigitC c then some (c :: r.takeWhile isDigitC, r.dropWhile isDigitC)
      else none
  | _ => none

/-- The single-character symbol alternative. -/
def matchSymbol : List Char → Option (List Char × List Char)
  | c :: r => if symbolChars.contains c then some ([c], r) else none
  | _ => none

/-- One step of the token regex: ordered choice over the alternatives, as in
the JS alternation.  `none` means no alternative matches here (the regex
engine then silently advances one character). -/
def matchToken (cs : List Char) : Option (List Char × List Char) :=
  match matchComment cs with
  | some r => some r
  | none =>
  match matchBoxed cs with
  | some r => some r
  | none =>
  match matchStringLit cs with
  | some r => some r
  | none =>
  match matchObjIdent cs with
  | some r => some r
  | none =>
  match matchTwoChar cs with
  | some r => some r
  | none =>
  match matchIdent cs with
  | some r => some r
  | none =>
  match matchDigits cs with
  | some r => some r
  | none => matchSymbol cs

/-- `val.slice(1, -1)`. -/
def sliceInner (val : List Char) : List Char := (val.drop 1).dropLast

/-- The token-classification chain in the body of `tokenizeLine`.  Note the
first test is `val.startsWith('!')`, so the two-character operator `!=` and
the single symbol `!` are both classified as `NUMBER_LITERAL` with value
`parseFloat('')` = NaN, exactly as in the source. -/
def mkToken (val : List Char) (ln : Nat) : Tok :=
  if val.headD ' ' = '!' then .NUMBER_LITERAL (parseFloatJ (sliceInner val)) ln
  else if val.headD ' ' = '"' then .STR_LITERAL (String.mk (sliceInner val)) ln
  else if val = "True".toList then .BOOL_LITERAL true ln
  else if val = "False".toList then .BOOL_LITERAL false ln
  else if val.headD ' ' = '#' then .OBJ_IDENTIFIER (String.mk (sliceInner val)) ln
  else if isAlphaU (val.headD ' ') then .IDENTIFIER (String.mk val) ln
  else if val ≠ [] && val.all isDigitC then .NUMBER (String.mk val) ln
  else .SYMBOL (String.mk val) ln

/-- Does the matched text begin a `--` comment (which aborts the line)? -/
def isCommentTok : List Char → Bool
  | '-' :: '-' :: _ => true
  | _ => false

/-- The `tokenizeLine` scanning loop.  Every step consumes at least one
character, so fuel equal to the line length suffices. -/
def scanLine : Nat → List Char → Nat → List Tok
  | 0, _, _ => []
  | fuel + 1, cs, ln =>
      match matchToken cs with
      | some (val, rest) =>
          if isCommentTok val then []
          else mkToken val ln :: scanLine fuel rest ln
      | none =>
          match cs with
          | [] => []
          | _ :: rest => scanLine fuel rest ln

namespace Lexer

/-- `Lexer.tokenizeLine`: tokenize one (already trimmed) line. -/
def tokenizeLine (cs : List Char) (ln : Nat) : List Tok :=
  scanLine cs.length cs ln

/-- JS whitespace for `String.trim` (lines contain no `\n`). -/
def isJsSpace (c : Char) : Bool :=
  c == ' ' || c == '\t' || c == '\r' || c == '\n' ||
  c == '\x0b' || c == '\x0c' || c == ' '

/-- `line.trim()`. -/
def trimList (cs : List Char) : List Char :=
  ((cs.dropWhile isJsSpace).reverse.dropWhile isJsSpace).reverse

/-- The indentation width of a line: the leading `[ \t]*` run with each tab
expanded to four columns (`replace(/\t/g, '    ').length`). -/
def indentWidth : List Char → Nat
  | ' ' :: r => indentWidth r + 1
  | '\t' :: r => indentWidth r + 4
  | _ => 0

/-- Is the line skipped entirely (blank, or a full-line `--` comment)? -/
def blankOrComment (cs : List Char) : Bool :=
  (trimList cs).isEmpty || isCommentTok (trimList cs)

/-- Split on `'\n'` only (every piece still carries any `'\r'`). -/
def splitNL : List Char → List (List Char)
  | [] => [[]]
  | c :: rest =>
      match splitNL rest with
      | [] => [[]]
      | p :: ps => if c = '\n' then [] :: p :: ps else (c :: p) :: ps

/-- Drop one trailing `'\r'`. -/
def dropTrailingCR (cs : List Char) : List Char :=
  if cs.getLastD ' ' = '\r' then cs.dropLast else cs

/-- `input.split(/\r?\n/)`: split on `'\n'`, dropping one `'\r'` immediately
before each separator (a trailing `'\r'` of the final piece stays). -/
def splitLines (cs : List Char) : List (List Char) :=
  let ps := splitNL cs
  (ps.dropLast.map dropTrailingCR) ++ [ps.getLastD []]

/-- Emit one DEDENT per stack level popped while the new indentation is
smaller than the top of the stack (head of the list = top of the stack). -/
def popDedents (ind : Nat) : List Nat → Nat → List Tok × List Nat
  | [], _ => ([], [])
  | top :: rest, ln =>
      if ind < top then
        (Tok.DEDENT (some ln) :: (popDedents ind rest ln).1,
         (popDedents ind rest ln).2)
      else ([], top :: rest)

/-- The per-line loop of `Lexer.tokenize`: returns the emitted tokens and the
final indent stack. -/
def lexLines : List (List Char) → Nat → List Nat → List Tok × List Nat
  | [], _, stack => ([], stack)
  | line :: rest, lineNum, stack =>
      if blankOrComment line then lexLines rest (lineNum + 1) stack
      else
        let ind := indentWidth line
        let pre : List Tok × List Nat :=
          if stack.headD 0 < ind then ([Tok.INDENT ind lineNum], ind :: stack)
          else popDedents ind stack lineNum
        (pre.1 ++ tokenizeLine (trimList line) lineNum ++ [Tok.NEWLINE lineNum] ++
           (lexLines rest (lineNum + 1) pre.2).1,
         (lexLines rest (lineNum + 1) pre.2).2)

/-- The end-of-input drain: `while (indentStack.length > 1)` emit a DEDENT
and pop.  Returns the emitted tokens and the final stack. -/
def drain : List Nat → List Tok × List Nat
  | [] => ([], [])
  | [x] => ([], [x])
  | _ :: y :: rest =>
      (Tok.DEDENT none :: (drain (y :: rest)).1, (drain (y :: rest)).2)

/-- `Lexer.tokenize`, also exposing the final indent stack. -/
def tokenizeWithStack (input : String) : List Tok × List Nat :=
  ((lexLines (splitLines input.toList) 1 [0]).1 ++
     (drain (lexLines (splitLines input.toList) 1 [0]).2).1,
   (drain (lexLines (splitLines input.toList) 1 [0]).2).2)

/-- `new Lexer(input).tokenize()`. -/
def tokenize (input : String) : List Tok :=
  (tokenizeWithStack input).1

end Lexer

/-! ## Parser (`src/mesh/parser.js`, class `Parser`)

One-token-lookahead recursive descent over the token list.  The parser
object's `this.pos` cursor is threaded explicitly; the token list itself
never changes.  All parse errors are thrown, modelled by `Except.error`.
Recursion is fuel-bounded; `Parser.parse` supplies ample fuel. -/

/-- The `type` tag of a token, as compared by `Parser.check`. -/
def tokType : Tok → String
  | .INDENT _ _ => "INDENT"
  | .DEDENT _ => "DEDENT"
  | .NEWLINE _ => "NEWLINE"
  | .NUMBER_LITERAL _ _ => "NUMBER_LITERAL"
  | .STR_LITERAL _ _ => "STR_LITERAL"
  | .BOOL_LITERAL _ _ => "BOOL_LITERAL"
  | .OBJ_IDENTIFIER _ _ => "OBJ_IDENTIFIER"
  | .IDENTIFIER _ _ => "IDENTIFIER"
  | .NUMBER _ _ => "NUMBER"
  | .SYMBOL _ _ => "SYMBOL"

/-- The `value` of a token when that value is a string (the only case the
parser ever compares against a string, as in `t.value === value`). -/
def tokStrVal : Tok → Option String
  | .STR_LITERAL s _ => some s
  | .OBJ_IDENTIFIER s _ => some s
  | .IDENTIFIER s _ => some s
  | .NUMBER s _ => some s
  | .SYMBOL s _ => some s
  | _ => none

/-- A token's `value` coerced to a string, as JS `"" + value` would render
it (used by `parseImport`'s name concatenation and `parseSuffix`'s member
names).  Decimal rendering of non-integer numbers is not modelled; no claim
exercises it. -/
def tokValueString : Tok → String
  | .STR_LITERAL s _ => s
  | .OBJ_IDENTIFIER s _ => s
  | .IDENTIFIER s _ => s
  | .NUMBER s _ => s
  | .SYMBOL s _ => s
  | .BOOL_LITERAL b _ => if b then "true" else "false"
  | .NUMBER_LITERAL (.q x) _ => if x.den = 1 then toString x.num else "?"
  | .NUMBER_LITERAL .nan _ => "NaN"
  | .NUMBER_LITERAL (.inf s) _ => if s then "-Infinity" else "Infinity"
  | .INDENT v _ => toString v
  | .DEDENT _ => "undefined"
  | .NEWLINE _ => "undefined"

namespace Parser

/-- `this.peek(n)`. -/
def peekTok (ts : List Tok) (pos n : Nat) : Option Tok := ts[pos + n]?

/-- `this.check(type, value)`. -/
def checkTok (ts : List Tok) (pos : Nat) (type : String) (value : Option String) :
    Bool :=
  match peekTok ts pos 0 with
  | none => false
  | some t =>
      tokType t = type && (value.isNone || (tokStrVal t == value))

/-- `this.consume(type, value)`: the consumed token and the new cursor. -/
def consumeTok (ts : List Tok) (pos : Nat) (type : String) (value : Option String) :
    Except String (Tok × Nat) :=
  if checkTok ts pos type value then
    match peekTok ts pos 0 with
    | some t => .ok (t, pos + 1)
    | none => .error "unreachable"
  else .error ("Expected " ++ type ++ " " ++ value.getD "")

/-- `this.consumeAny()`. -/
def consumeAnyTok (ts : List Tok) (pos : Nat) : Except String (Tok × Nat) :=
  match peekTok ts pos 0 with
  | some t => .ok (t, pos + 1)
  | none => .error "consumeAny past end of input"

/-- Sequencing for parse results that carry the new cursor. -/
def pbind {α β : Type} (r : Except String (α × Nat))
    (f : α → Nat → Except String (β × Nat)) : Except String (β × Nat) :=
  match r with
  | .ok (a, p) => f a p
  | .error e => .error e

/-- The consumed token's string value (`consume(...).value`). -/
def pval (t : Tok) : String := (tokStrVal t).getD ""

end Parser

open Parser in
mutual

/-- `Parser.parseBlock`: statements until DEDENT or end of input. -/
def parseBlockF : Nat → List Tok → Nat → Except String (List Stmt × Nat)
  | 0, _, _ => .error "parser fuel exhausted"
  | fuel + 1, ts, pos =>
      if pos < ts.length ∧ ¬ checkTok ts pos "DEDENT" none then
        if checkTok ts pos "NEWLINE" none then parseBlockF fuel ts (pos + 1)
        else
          pbind (parseStatementF fuel ts pos) fun stmt pos1 =>
          pbind (parseBlockF fuel ts pos1) fun rest pos2 =>
          .ok (stmt :: rest, pos2)
      else .ok ([], pos)

  termination_by structural fuel ts pos => fuel

/-- `Parser.parseStatement`: dispatch on the leading token(s). -/
def parseStatementF : Nat → List Tok → Nat → Except String (Stmt × Nat)
  | 0, _, _ => .error "parser fuel exhausted"
  | fuel + 1, ts, pos =>
      if checkTok ts pos "IDENTIFIER" (some "function") then parseFunctionF fuel ts pos
      else if checkTok ts pos "IDENTIFIER" (some "if") then parseIfF fuel ts pos
      else if checkTok ts pos "IDENTIFIER" (some "while") then parseWhileF fuel ts pos
      else if checkTok ts pos "IDENTIFIER" (some "for") then parseForF fuel ts pos
      else if checkTok ts pos "IDENTIFIER" (some "return") then parseReturnF fuel ts pos
      else if checkTok ts pos "IDENTIFIER" (some "import") then parseImportF fuel ts pos
      else if checkTok ts pos "IDENTIFIER" (some "break") then
        pbind (consumeTok ts pos "IDENTIFIER" none) fun _ pos1 =>
        pbind (consumeTok ts pos1 "NEWLINE" none) fun _ pos2 =>
        .ok (.breakStmt, pos2)
      else if checkTok ts pos "IDENTIFIER" (some "continue") then
        pbind (consumeTok ts pos "IDENTIFIER" none) fun _ pos1 =>
        pbind (consumeTok ts pos1 "NEWLINE" none) fun _ pos2 =>
        .ok (.continueStmt, pos2)
      else if checkTok ts pos "OBJ_IDENTIFIER" none ∨
          (checkTok ts pos "IDENTIFIER" none ∧
            (peekTok ts pos 1).any (fun t => tokType t = "OBJ_IDENTIFIER")) then
        parseObjectDefinitionF fuel ts pos
      else if checkTok ts pos "IDENTIFIER" none ∧
          (peekTok ts pos 1).any (fun t =>
            ["=", "+=", "-=", "*=", "/="].contains ((tokStrVal t).getD "\u0000")) then
        parseAssignmentF fuel ts pos
      else
        pbind (parseExpressionF fuel ts pos) fun e pos1 =>
        pbind (consumeTok ts pos1 "NEWLINE" none) fun _ pos2 =>
        .ok (.exprStmt e, pos2)

  termination_by structural fuel ts pos => fuel

/-- `Parser.parseFor`: the range-style `for i = start to end` form. -/
def parseForF : Nat → List Tok → Nat → Except String (Stmt × Nat)
  | 0, _, _ => .error "parser fuel exhausted"
  | fuel + 1, ts, pos =>
      pbind (consumeTok ts pos "IDENTIFIER" (some "for")) fun _ p1 =>
      pbind (consumeTok ts p1 "IDENTIFIER" none) fun it p2 =>
      pbind (consumeTok ts p2 "SYMBOL" (some "=")) fun _ p3 =>
      pbind (parseExpressionF fuel ts p3) fun start p4 =>
      pbind (consumeTok ts p4 "IDENTIFIER" (some "to")) fun _ p5 =>
      pbind (parseExpressionF fuel ts p5) fun stop p6 =>
      pbind (consumeTok ts p6 "NEWLINE" none) fun _ p7 =>
      pbind (consumeTok ts p7 "INDENT" none) fun _ p8 =>
      pbind (parseBlockF fuel ts p8) fun body p9 =>
      pbind (consumeTok ts p9 "DEDENT" none) fun _ p10 =>
      .ok (.forStmt (pval it) start stop body, p10)

  termination_by structural fuel ts pos => fuel

/-- The token-concatenation loop of `Parser.parseImport`. -/
def importNameF : Nat → List Tok → Nat → String → Except String (String × Nat)
  | 0, _, _, _ => .error "parser fuel exhausted"
  | fuel + 1, ts, pos, acc =>
      if pos < ts.length ∧ ¬ checkTok ts pos "NEWLINE" none then
        pbind (consumeAnyTok ts pos) fun t pos1 =>
        importNameF fuel ts pos1 (acc ++ tokValueString t)
      else .ok (acc, pos)

  termination_by structural fuel ts pos extra => fuel

/-- `Parser.parseImport`. -/
def parseImportF : Nat → List Tok → Nat → Except String (Stmt × Nat)
  | 0, _, _ => .error "parser fuel exhausted"
  | fuel + 1, ts, pos =>
      pbind (consumeTok ts pos "IDENTIFIER" (some "import")) fun _ p1 =>
      pbind (importNameF fuel ts p1 "") fun name p2 =>
      if p2 < ts.length then
        pbind (consumeTok ts p2 "NEWLINE" none) fun _ p3 =>
        .ok (.importStmt name, p3)
      else .ok (.importStmt name, p2)

/-- `Parser.parseObjectDefinition`.  The `operator` field captured from the
`=` symbol is never read by the interpreter and is not modelled. -/
def parseObjectDefinitionF : Nat → List Tok → Nat → Except String (Stmt × Nat)
  | 0, _, _ => .error "parser fuel exhausted"
  | fuel + 1, ts, pos =>
      let rest := fun (name : String) (parent : Option String) (p : Nat) =>
        pbind (consumeTok ts p "SYMBOL" none) fun _ q1 =>
        pbind (consumeTok ts q1 "SYMBOL" (some "[")) fun _ q2 =>
        pbind (consumeTok ts q2 "NEWLINE" none) fun _ q3 =>
        pbind (consumeTok ts q3 "INDENT" none) fun _ q4 =>
        pbind (parseBlockF fuel ts q4) fun props q5 =>
        pbind (consumeTok ts q5 "DEDENT" none) fun _ q6 =>
        pbind (consumeTok ts q6 "SYMBOL" (some "]")) fun _ q7 =>
        pbind (consumeTok ts q7 "NEWLINE" none) fun _ q8 =>
        .ok (Stmt.objDef name parent props, q8)
      if checkTok ts pos "IDENTIFIER" none then
        pbind (consumeTok ts pos "IDENTIFIER" none) fun n p1 =>
        pbind (consumeTok ts p1 "OBJ_IDENTIFIER" none) fun par p2 =>
        rest (pval n) (some (pval par)) p2
      else
        pbind (consumeTok ts pos "OBJ_IDENTIFIER" none) fun n p1 =>
        rest (pval n) none p1

  termination_by structural fuel ts pos => fuel

/-- `Parser.parseAssignment`. -/
def parseAssignmentF : Nat → List Tok → Nat → Except String (Stmt × Nat)
  | 0, _, _ => .error "parser fuel exhausted"
  | fuel + 1, ts, pos =>
      pbind (consumeTok ts pos "IDENTIFIER" none) fun n p1 =>
      pbind (consumeTok ts p1 "SYMBOL" none) fun op p2 =>
      pbind (parseExpressionF fuel ts p2) fun v p3 =>
      pbind (consumeTok ts p3 "NEWLINE" none) fun _ p4 =>
      .ok (.assign (pval n) (pval op) v, p4)

/-- The `do … while (this.match('SYMBOL', ','))` parameter-name loop of
`Parser.parseFunction`. -/
def paramsLoopF : Nat → List Tok → Nat → Except String (List String × Nat)
  | 0, _, _ => .error "parser fuel exhausted"
  | fuel + 1, ts, pos =>
      pbind (consumeTok ts pos "IDENTIFIER" none) fun p p1 =>
      if checkTok ts p1 "SYMBOL" (some ",") then
        pbind (paramsLoopF fuel ts (p1 + 1)) fun rest p2 =>
        .ok (pval p :: rest, p2)
      else .ok ([pval p], p1)

  termination_by structural fuel ts pos => fuel

/-- `Parser.parseFunction`. -/
def parseFunctionF : Nat → List Tok → Nat → Except String (Stmt × Nat)
  | 0, _, _ => .error "parser fuel exhausted"
  | fuel + 1, ts, pos =>
      pbind (consumeTok ts pos "IDENTIFIER" (some "function")) fun _ p1 =>
      pbind (consumeTok ts p1 "IDENTIFIER" none) fun n p2 =>
      pbind (consumeTok ts p2 "SYMBOL" (some "(")) fun _ p3 =>
      pbind
        (if ¬ checkTok ts p3 "SYMBOL" (some ")") then paramsLoopF fuel ts p3
         else .ok ([], p3)) fun params p4 =>
      pbind (consumeTok ts p4 "SYMBOL" (some ")")) fun _ p5 =>
      pbind (consumeTok ts p5 "NEWLINE" none) fun _ p6 =>
      pbind (consumeTok ts p6 "INDENT" none) fun _ p7 =>
      pbind (parseBlockF fuel ts p7) fun body p8 =>
      pbind (consumeTok ts p8 "DEDENT" none) fun _ p9 =>
      .ok (.funcDecl (pval n) params body, p9)

  termination_by structural fuel ts pos => fuel

/-- The `elif` chain loop of `Parser.parseIf`. -/
def elifLoopF : Nat → List Tok → Nat →
    Except String (List (Expr × List Stmt) × Nat)
  | 0, _, _ => .error "parser fuel exhausted"
  | fuel + 1, ts, pos =>
      if checkTok ts pos "IDENTIFIER" (some "elif") then
        pbind (parseExpressionF fuel ts (pos + 1)) fun t p1 =>
        pbind (consumeTok ts p1 "NEWLINE" none) fun _ p2 =>
        pbind (consumeTok ts p2 "INDENT" none) fun _ p3 =>
        pbind (parseBlockF fuel ts p3) fun body p4 =>
        pbind (consumeTok ts p4 "DEDENT" none) fun _ p5 =>
        pbind (elifLoopF fuel ts p5) fun rest p6 =>
        .ok ((t, body) :: rest, p6)
      else .ok ([], pos)

  termination_by structural fuel ts pos => fuel

/-- `Parser.parseIf`. -/
def parseIfF : Nat → List Tok → Nat → Except String (Stmt × Nat)
  | 0, _, _ => .error "parser fuel exhausted"
  | fuel + 1, ts, pos =>
      pbind (consumeTok ts pos "IDENTIFIER" (some "if")) fun _ p1 =>
      pbind (parseExpressionF fuel ts p1) fun test p2 =>
      pbind (consumeTok ts p2 "NEWLINE" none) fun _ p3 =>
      pbind (consumeTok ts p3 "INDENT" none) fun _ p4 =>
      pbind (parseBlockF fuel ts p4) fun conseq p5 =>
      pbind (consumeTok ts p5 "DEDENT" none) fun _ p6 =>
      pbind (elifLoopF fuel ts p6) fun elifs p7 =>
      if checkTok ts p7 "IDENTIFIER" (some "else") then
        pbind (consumeTok ts (p7 + 1) "NEWLINE" none) fun _ p8 =>
        pbind (consumeTok ts p8 "INDENT" none) fun _ p9 =>
        pbind (parseBlockF fuel ts p9) fun alt p10 =>
        pbind (consumeTok ts p10 "DEDENT" none) fun _ p11 =>
        .ok (.ifStmt test conseq elifs (some alt), p11)
      else .ok (.ifStmt test conseq elifs none, p7)

  termination_by structural fuel ts pos => fuel

/-- `Parser.parseWhile`. -/
def parseWhileF : Nat → List Tok → Nat → Except String (Stmt × Nat)
  | 0, _, _ => .error "parser fuel exhausted"
  | fuel + 1, ts, pos =>
      pbind (consumeTok ts pos "IDENTIFIER" (some "while")) fun _ p1 =>
      pbind (parseExpressionF fuel ts p1) fun test p2 =>
      pbind (consumeTok ts p2 "NEWLINE" none) fun _ p3 =>
      pbind (consumeTok ts p3 "INDENT" none) fun _ p4 =>
      pbind (parseBlockF fuel ts p4) fun body p5 =>
      pbind (consumeTok ts p5 "DEDENT" none) fun _ p6 =>
      .ok (.whileStmt test body, p6)

  termination_by structural fuel ts pos => fuel

/-- `Parser.parseReturn`: the dialect writes `return = expr`. -/
def parseReturnF : Nat → List Tok → Nat → Except String (Stmt × Nat)
  | 0, _, _ => .error "parser fuel exhausted"
  | fuel + 1, ts, pos =>
      pbind (consumeTok ts pos "IDENTIFIER" (some "return")) fun _ p1 =>
      pbind (consumeTok ts p1 "SYMBOL" (some "=")) fun _ p2 =>
      pbind (parseExpressionF fuel ts p2) fun v p3 =>
      pbind (consumeTok ts p3 "NEWLINE" none) fun _ p4 =>
      .ok (.returnStmt v, p4)

/-- `Parser.parseExpression` = `parseLogicalOr`. -/
def parseExpressionF : Nat → List Tok → Nat → Except String (Expr × Nat)
  | 0, _, _ => .error "parser fuel exhausted"
  | fuel + 1, ts, pos => parseLogicalOrF fuel ts pos

  termination_by structural fuel ts pos => fuel

/-- `Parser.parseLogicalOr` (the `while` folding loop is `orLoopF`). -/
def parseLogicalOrF : Nat → List Tok → Nat → Except String (Expr × Nat)
  | 0, _, _ => .error "parser fuel exhausted"
  | fuel + 1, ts, pos =>
      pbind (parseLogicalAndF fuel ts pos) fun left p1 =>
      orLoopF fuel ts p1 left

  termination_by structural fuel ts pos => fuel

/-- Left-associative folding of `or`. -/
def orLoopF : Nat → List Tok → Nat → Expr → Except String (Expr × Nat)
  | 0, _, _, _ => .error "parser fuel exhausted"
  | fuel + 1, ts, pos, left =>
      if checkTok ts pos "IDENTIFIER" (some "or") then
        pbind (parseLogicalAndF fuel ts (pos + 1)) fun right p1 =>
        orLoopF fuel ts p1 (.bin left "or" right)
      else .ok (left, pos)

  termination_by structural fuel ts pos extra => fuel

/-- `Parser.parseLogicalAnd`. -/
def parseLogicalAndF : Nat → List Tok → Nat → Except String (Expr × Nat)
  | 0, _, _ => .error "parser fuel exhausted"
  | fuel + 1, ts, pos =>
      pbind (parseComparisonF fuel ts pos) fun left p1 =>
      andLoopF fuel ts p1 left

  termination_by structural fuel ts pos => fuel

/-- Left-associative folding of `and`. -/
def andLoopF : Nat → List Tok → Nat → Expr → Except String (Expr × Nat)
  | 0, _, _, _ => .error "parser fuel exhausted"
  | fuel + 1, ts, pos, left =>
      if checkTok ts pos "IDENTIFIER" (some "and") then
        pbind (parseComparisonF fuel ts (pos + 1)) fun right p1 =>
        andLoopF fuel ts p1 (.bin left "and" right)
      else .ok (left, pos)

  termination_by structural fuel ts pos extra => fuel

/-- `Parser.parseComparison`. -/
def parseComparisonF : Nat → List Tok → Nat → Except String (Expr × Nat)
  | 0, _, _ => .error "parser fuel exhausted"
  | fuel + 1, ts, pos =>
      pbind (parseAdditiveF fuel ts pos) fun left p1 =>
      cmpLoopF fuel ts p1 left

  termination_by structural fuel ts pos => fuel

/-- Left-associative folding of the comparison operators. -/
def cmpLoopF : Nat → List Tok → Nat → Expr → Except String (Expr × Nat)
  | 0, _, _, _ => .error "parser fuel exhausted"
  | fuel + 1, ts, pos, left =>
      if checkTok ts pos "SYMBOL" none ∧
          (peekTok ts pos 0).any (fun t =>
            ["==", "!=", "<", ">", "<=", ">="].contains ((tokStrVal t).getD "\u0000")) then
        pbind (consumeTok ts pos "SYMBOL" none) fun op p1 =>
        pbind (parseAdditiveF fuel ts p1) fun right p2 =>
        cmpLoopF fuel ts p2 (.bin left (pval op) right)
      else .ok (left, pos)

  termination_by structural fuel ts pos extra => fuel

/-- `Parser.parseAdditive`. -/
def parseAdditiveF : Nat → List Tok → Nat → Except String (Expr × Nat)
  | 0, _, _ => .error "parser fuel exhausted"
  | fuel + 1, ts, pos =>
      pbind (parseMultiplicativeF fuel ts pos) fun left p1 =>
      addLoopF fuel ts p1 left

  termination_by structural fuel ts pos => fuel

/-- Left-associative folding of `+` and `-`. -/
def addLoopF : Nat → List Tok → Nat → Expr → Except String (Expr × Nat)
  | 0, _, _, _ => .error "parser fuel exhausted"
  | fuel + 1, ts, pos, left =>
      if checkTok ts pos "SYMBOL" (some "+") ∨ checkTok ts pos "SYMBOL" (some "-") then
        pbind (consumeTok ts pos "SYMBOL" none) fun op p1 =>
        pbind (parseMultiplicativeF fuel ts p1) fun right p2 =>
        addLoopF fuel ts p2 (.bin left (pval op) right)
      else .ok (left, pos)

  termination_by structural fuel ts pos extra => fuel

/-- `Parser.parseMultiplicative`. -/
def parseMultiplicativeF : Nat → List Tok → Nat → Except String (Expr × Nat)
  | 0, _, _ => .error "parser fuel exhausted"
  | fuel + 1, ts, pos =>
      pbind (parsePrimaryF fuel ts pos) fun left p1 =>
      mulLoopF fuel ts p1 left

  termination_by structural fuel ts pos => fuel

/-- Left-associative folding of `*` and `/`. -/
def mulLoopF : Nat → List Tok → Nat → Expr → Except String (Expr × Nat)
  | 0, _, _, _ => .error "parser fuel exhausted"
  | fuel + 1, ts, pos, left =>
      if checkTok ts pos "SYMBOL" (some "*") ∨ checkTok ts pos "SYMBOL" (some "/") then
        pbind (consumeTok ts pos "SYMBOL" none) fun op p1 =>
        pbind (parsePrimaryF fuel ts p1) fun right p2 =>
        mulLoopF fuel ts p2 (.bin left (pval op) right)
      else .ok (left, pos)

  termination_by structural fuel ts pos extra => fuel

/-- The comma-separated expression list of array literals and call
arguments (`do … while (this.match('SYMBOL', ','))`). -/
def exprListF : Nat → List Tok → Nat → Except String (List Expr × Nat)
  | 0, _, _ => .error "parser fuel exhausted"
  | fuel + 1, ts, pos =>
      pbind (parseExpressionF fuel ts pos) fun e p1 =>
      if checkTok ts p1 "SYMBOL" (some ",") then
        pbind (exprListF fuel ts (p1 + 1)) fun rest p2 =>
        .ok (e :: rest, p2)
      else .ok ([e], p1)

  termination_by structural fuel ts pos => fuel

/-- `Parser.parsePrimary`. -/
def parsePrimaryF : Nat → List Tok → Nat → Except String (Expr × Nat)
  | 0, _, _ => .error "parser fuel exhausted"
  | fuel + 1, ts, pos =>
      if checkTok ts pos "SYMBOL" (some "(") then
        pbind (parseExpressionF fuel ts (pos + 1)) fun e p1 =>
        pbind (consumeTok ts p1 "SYMBOL" (some ")")) fun _ p2 =>
        .ok (e, p2)
      else if checkTok ts pos "SYMBOL" (some "[") then
        pbind
          (if ¬ checkTok ts (pos + 1) "SYMBOL" (some "]") then
            exprListF fuel ts (pos + 1)
           else .ok ([], pos + 1)) fun elems p1 =>
        pbind (consumeTok ts p1 "SYMBOL" (some "]")) fun _ p2 =>
        .ok (.arrayLit elems, p2)
      else
        match peekTok ts pos 0 with
        | some (.NUMBER_LITERAL v _) => .ok (.lit (.num v), pos + 1)
        | some (.NUMBER s _) => .ok (.lit (.num (parseFloatJ s.toList)), pos + 1)
        | some (.STR_LITERAL s _) => .ok (.lit (.str s), pos + 1)
        | some (.BOOL_LITERAL b _) => .ok (.lit (.bool b), pos + 1)
        | some (.IDENTIFIER id _) =>
            if id = "eval" then
              pbind (consumeTok ts (pos + 1) "SYMBOL" (some "(")) fun _ p1 =>
              pbind (parseExpressionF fuel ts p1) fun arg p2 =>
              pbind (consumeTok ts p2 "SYMBOL" (some ")")) fun _ p3 =>
              .ok (.evalCall arg, p3)
            else parseSuffixF fuel ts (pos + 1) (.ident id)
        | some (.OBJ_IDENTIFIER id _) => parseSuffixF fuel ts (pos + 1) (.ident id)
        | _ => .error ("Unexpected token at position " ++ toString pos)

  termination_by structural fuel ts pos => fuel

/-- `Parser.parseSuffix`: postfix chains of member access and calls. -/
def parseSuffixF : Nat → List Tok → Nat → Expr → Except String (Expr × Nat)
  | 0, _, _, _ => .error "parser fuel exhausted"
  | fuel + 1, ts, pos, e =>
      if checkTok ts pos "SYMBOL" (some ".") then
        pbind (consumeAnyTok ts (pos + 1)) fun prop p1 =>
        parseSuffixF fuel ts p1 (.member e (tokValueString prop))
      else if checkTok ts pos "SYMBOL" (some "(") then
        pbind
          (if ¬ checkTok ts (pos + 1) "SYMBOL" (some ")") then
            exprListF fuel ts (pos + 1)
           else .ok ([], pos + 1)) fun args p1 =>
        pbind (consumeTok ts p1 "SYMBOL" (some ")")) fun _ p2 =>
        parseSuffixF fuel ts p2 (.call e args)
      else .ok (e, pos)

  termination_by structural fuel ts pos extra => fuel
end

namespace Parser

/-- Fuel that ample covers any parse of `ts` (each unit of fuel is consumed
only alongside progress through the token list or descent). -/
def parseFuel (ts : List Tok) : Nat := (ts.length + 2) * (ts.length + 2) * 4

/-- `new Parser(tokens).parse()`. -/
def parse (ts : List Tok) : Except String Program :=
  match parseBlockF (parseFuel ts) ts 0 with
  | .ok (body, _) => .ok body
  | .error e => .error e

end Parser

/-! ## Interpreter (`src/mesh/parser.js`, class `Interpreter`)

Control flow uses sentinel keys (`__ret__`, `__break__`, `__continue__`)
stashed into the current scope's own binding map; `executeBlock` inspects
them after every statement.  Results are `Res`: a value with the updated
state, a thrown error, or fuel exhaustion. -/

/-- Outcome of an interpreter step. -/
inductive Res (α : Type) where
  | ok (a : α) (σ : St)
  | err (e : String)
  | timeout

/-- Sequencing of interpreter steps. -/
def Res.bind {α β : Type} : Res α → (α → St → Res β) → Res β
  | .ok a σ, f => f a σ
  | .err e, _ => .err e
  | .timeout, _ => .timeout

/-- JS truthiness. -/
def truthy : Value → Bool
  | .undef => false
  | .vnull => false
  | .bool b => b
  | .num n => !n.falsy
  | .str s => !(s == "")
  | .arr _ => true
  | .obj _ => true
  | .closure _ _ _ => true
  | .builtin _ => true

/-- `Number(s)` on a string: empty/whitespace is 0, otherwise the whole
string must be numeric. -/
def strToNum (s : String) : JNum :=
  let cs := Lexer.trimList s.toList
  if cs.isEmpty then .q 0
  else
    let (neg, cs1) : Bool × List Char :=
      match cs with
      | '-' :: r => (true, r)
      | '+' :: r => (false, r)
      | r => (false, r)
    let d1 := cs1.takeWhile isDigitC
    let r1 := cs1.dropWhile isDigitC
    let (d2, r2) : List Char × List Char :=
      match r1 with
      | '.' :: r => (r.takeWhile isDigitC, r.dropWhile isDigitC)
      | r => ([], r)
    if (d1 = [] ∧ d2 = []) ∨ r2 ≠ [] then .nan
    else
      let n : Int := (digitsVal d1 * 10 ^ d2.length + digitsVal d2 : Nat)
      .q (MRat.norm (if neg then -n else n) (10 ^ d2.length))

/-- JS `Number(v)` coercion.  Arrays and objects go through `ToPrimitive`
in JS; that path is unreachable in this dialect (array literals evaluate to
`undefined`, see `evaluate`) and is approximated by NaN. -/
def toNumber : Value → JNum
  | .undef => .nan
  | .vnull => .q 0
  | .bool b => if b then .q 1 else .q 0
  | .num n => n
  | .str s => strToNum s
  | .arr _ => .nan
  | .obj _ => .nan
  | .closure _ _ _ => .nan
  | .builtin _ => .nan

/-- Rendering of a number by JS `String(...)`.  Decimal rendering of
non-integer rationals is not modelled (no claim stringifies one). -/
def jnumToString : JNum → String
  | .q x => if x.den = 1 then toString x.num else "?"
  | .nan => "NaN"
  | .inf s => if s then "-Infinity" else "Infinity"

/-- JS `String(v)`.  Array/object/function rendering is approximated (such
values reach `String` only through host interaction, not through any claim). -/
def jsToString : Value → String
  | .undef => "undefined"
  | .vnull => "null"
  | .bool b => if b then "true" else "false"
  | .num n => jnumToString n
  | .str s => s
  | .arr _ => ""
  | .obj _ => "[object Object]"
  | .closure _ _ _ => "function"
  | .builtin _ => "function"

/-- A boolean as a JS number. -/
def boolNum (b : Bool) : JNum := if b then .q 1 else .q 0

/-- JS `+`: string concatenation when either side is a string, numeric
addition otherwise (`ToPrimitive` on objects is not modelled; see
`toNumber`). -/
def jsAdd (l r : Value) : Value :=
  match l, r with
  | .str a, _ => .str (a ++ jsToString r)
  | _, .str b => .str (jsToString l ++ b)
  | _, _ => .num (JNum.add (toNumber l) (toNumber r))

/-- JS loose equality `==` for the value kinds this interpreter can
produce.  Object/array/function comparisons use reference identity in JS,
which a value model cannot express; they are approximated by `false` (no
claim compares them). -/
def jsLooseEq : Value → Value → Bool
  | .undef, .undef => true
  | .undef, .vnull => true
  | .vnull, .undef => true
  | .vnull, .vnull => true
  | .undef, _ => false
  | _, .undef => false
  | .vnull, _ => false
  | _, .vnull => false
  | .num a, .num b => a.eqb b
  | .str a, .str b => a == b
  | .num a, .str s => a.eqb (strToNum s)
  | .str s, .num b => (strToNum s).eqb b
  | .bool a, .bool b => a == b
  | .bool a, .num b => (boolNum a).eqb b
  | .num a, .bool b => a.eqb (boolNum b)
  | .bool a, .str s => (boolNum a).eqb (strToNum s)
  | .str s, .bool b => (strToNum s).eqb (boolNum b)
  | _, _ => false

/-- JS `<`: lexicographic when both sides are strings, numeric otherwise. -/
def jsLtB (l r : Value) : Bool :=
  match l, r with
  | .str a, .str b => decide (a < b)
  | _, _ => JNum.lt (toNumber l) (toNumber r)

/-- JS `<=`. -/
def jsLeB (l r : Value) : Bool :=
  match l, r with
  | .str a, .str b => decide (a ≤ b)
  | _, _ => JNum.le (toNumber l) (toNumber r)

/-- JS `>`. -/
def jsGtB (l r : Value) : Bool := jsLtB r l

/-- JS `>=`. -/
def jsGeB (l r : Value) : Bool := jsLeB r l

/-- The operator switch of `evaluate` for `BinaryExpression` after both
operands are evaluated (the `and`/`or` short-circuit happens before this);
an unknown operator falls through to `return null`. -/
def applyBin (op : String) (l r : Value) : Value :=
  if op = "+" then jsAdd l r
  else if op = "-" then .num (JNum.sub (toNumber l) (toNumber r))
  else if op = "*" then .num (JNum.mul (toNumber l) (toNumber r))
  else if op = "/" then .num (JNum.div (toNumber l) (toNumber r))
  else if op = "==" then .bool (jsLooseEq l r)
  else if op = "!=" then .bool (!jsLooseEq l r)
  else if op = ">" then .bool (jsGtB l r)
  else if op = "<" then .bool (jsLtB l r)
  else if op = ">=" then .bool (jsGeB l r)
  else if op = "<=" then .bool (jsLeB l r)
  else .vnull

/-- `typeof v === 'object'` for a truthy value of this interpreter. -/
def isObjectType : Value → Bool
  | .obj _ => true
  | .arr _ => true
  | _ => false

/-- `typeof v === 'function'`. -/
def isFunctionType : Value → Bool
  | .closure _ _ _ => true
  | .builtin _ => true
  | _ => false

/-- Property lookup `obj[prop]` for the value kinds the interpreter
produces; a miss is `undefined`.  (Boxed-primitive properties such as
`"x".length` are approximated by `undefined`; no claim reads them.) -/
def valueProp (v : Value) (prop : String) : Value :=
  match v with
  | .obj entries => (mapGet entries prop).getD .undef
  | .arr xs =>
      if prop = "length" then .num (.q (MRat.ofInt xs.length))
      else
        match prop.toNat? with
        | some i => xs[i]?.getD .undef
        | none => .undef
  | _ => Value.undef

/-- A literal AST payload as a runtime value. -/
def litValue : Lit → Value
  | .num n => .num n
  | .str s => .str s
  | .bool b => .bool b

/-- Modelled from the spec: module resolution (`deps.ModuleManager.resolve`
together with dynamic `import()`) is an external collaborator (§6 of the
spec); the resolved module is an opaque host value.  No claim exercises
imports. -/
def resolveModule (name : String) : Value :=
  .obj [("__module__", .str name)]

/-- Bind parameters positionally: `node.params.forEach((p, i) =>
fnScope.set(p, args[i]))` — a missing argument is JS `undefined`. -/
def bindParams : List String → List Value → St → Nat → St
  | [], _, σ, _ => σ
  | p :: ps, args, σ, sid =>
      bindParams ps (args.drop 1) (scopeSet σ sid p (args.headD .undef)) sid

/-- Lookup in the `eval` source-text cache. -/
def cacheGet (c : List (String × Program)) (k : String) : Option Program :=
  match c with
  | [] => none
  | (k', v) :: rest => if k' = k then some v else cacheGet rest k

mutual

/-- `Interpreter.evaluate(node, scope)`. -/
def evaluate : Nat → Expr → St → Nat → Res Value
  | 0, _, _, _ => .timeout
  | fuel + 1, e, σ, sid =>
      match e with
      | .lit l => .ok (litValue l) σ
      | .ident name =>
          let v := scopeGet σ sid name
          match v with
          | .undef => .err ("Undefined: " ++ name)
          | _ => .ok v σ
      | .arrayLit _ =>
          -- the evaluate switch has no ArrayLiteral case: it falls through
          -- and the function returns undefined
          .ok .undef σ
      | .bin l op r =>
          (evaluate fuel l σ sid).bind fun lv σ1 =>
          if op = "and" then
            if ¬ truthy lv then .ok lv σ1 else evaluate fuel r σ1 sid
          else if op = "or" then
            if truthy lv then .ok lv σ1 else evaluate fuel r σ1 sid
          else
            (evaluate fuel r σ1 sid).bind fun rv σ2 =>
            .ok (applyBin op lv rv) σ2
      | .call callee argEs =>
          (match callee with
           | .member objE prop =>
               (evaluate fuel objE σ sid).bind fun ctx σ1 =>
               if truthy ctx && isObjectType ctx then .ok (valueProp ctx prop) σ1
               else .ok .undef σ1
           | _ => evaluate fuel callee σ sid).bind fun fn σ1 =>
          (evalArgs fuel argEs σ1 sid).bind fun args σ2 =>
          match fn with
          | .closure params body csid =>
              let (fsid, σ3) := allocScope σ2 (some csid) []
              executeBlock fuel body (bindParams params args σ3 fsid) fsid .vnull
          | .builtin bname =>
              if bname = "print" then
                .ok .undef { σ2 with output := σ2.output ++ [args] }
              else .ok .undef σ2
          | _ => .err "Execution Error: Call target is not a function."
      | .member objE prop =>
          (evaluate fuel objE σ sid).bind fun ov σ1 =>
          match ov with
          | .undef =>
              .err ("Execution Error: Cannot access property '" ++ prop ++
                "' of undefined.")
          | .vnull =>
              .err ("Execution Error: Cannot access property '" ++ prop ++
                "' of null.")
          | _ => .ok (valueProp ov prop) σ1
      | .evalCall argE =>
          (evaluate fuel argE σ sid).bind fun av σ1 =>
          let code := jsToString av
          match cacheGet σ1.evalCache code with
          | some ast => runEvalAst fuel ast σ1 sid
          | none =>
              match Parser.parse (Lexer.tokenize code) with
              | .error msg => .err msg
              | .ok ast =>
                  runEvalAst fuel ast
                    { σ1 with evalCache := σ1.evalCache ++ [(code, ast)] } sid
  termination_by structural fuel e σ sid => fuel

/-- The tail of `EvalCall` evaluation: a single expression-statement program
is evaluated as an expression in the current scope; anything else runs as a
block in the current scope. -/
def runEvalAst : Nat → Program → St → Nat → Res Value
  | 0, _, _, _ => .timeout
  | fuel + 1, ast, σ, sid =>
      match ast with
      | [.exprStmt e] => evaluate fuel e σ sid
      | _ => executeBlock fuel ast σ sid .vnull
  termination_by structural fuel ast σ sid => fuel

/-- Argument evaluation (`Promise.all(node.arguments.map(...))`, which
starts the evaluations left to right; modelled sequentially). -/
def evalArgs : Nat → List Expr → St → Nat → Res (List Value)
  | _, [], σ, _ => .ok [] σ
  | 0, _ :: _, _, _ => .timeout
  | fuel + 1, e :: rest, σ, sid =>
      (evaluate fuel e σ sid).bind fun v σ1 =>
      (evalArgs fuel rest σ1 sid).bind fun vs σ2 =>
      .ok (v :: vs) σ2
  termination_by structural fuel es σ sid => fuel

/-- `Interpreter.executeStatement(node, scope)` (returns JS `undefined`
for every statement kind that only `break`s out of the switch). -/
def executeStatement : Nat → Stmt → St → Nat → Res Value
  | 0, _, _, _ => .timeout
  | fuel + 1, s, σ, sid =>
      match s with
      | .importStmt mname =>
          .ok .undef
            (scopeSet σ sid ((mname.splitOn ".").headD "") (resolveModule mname))
      | .funcDecl name params body =>
          .ok .undef (scopeSet σ sid name (.closure params body sid))
      | .objDef name parent props =>
          let base : List (String × Value) :=
            match parent with
            | some pn =>
                match scopeGet σ sid pn with
                | .obj entries => entries
                | .arr xs => (xs.enum.map fun p => (toString p.1, p.2))
                | _ => []
            | none => []
          let (osid, σ1) := allocScope σ none base
          (executeBlock fuel props σ1 osid .vnull).bind fun _ σ2 =>
          .ok .undef (scopeSet σ2 sid name (.obj (frameAt σ2 osid).values))
      | .assign name op valueE =>
          (evaluate fuel valueE σ sid).bind fun v σ1 =>
          let val :=
            if op = "=" then v
            else
              let got := scopeGet σ1 sid name
              let current := if truthy got then got else .num (.q 0)
              if op = "+=" then jsAdd current v
              else if op = "-=" then .num (JNum.sub (toNumber current) (toNumber v))
              else if op = "*=" then .num (JNum.mul (toNumber current) (toNumber v))
              else if op = "/=" then .num (JNum.div (toNumber current) (toNumber v))
              else v
          let (assigned, σ2) := scopeAssign σ1 sid name val
          .ok .undef (if assigned then σ2 else scopeSet σ2 sid name val)
      | .ifStmt test conseq elifs alt =>
          (evaluate fuel test σ sid).bind fun t σ1 =>
          if truthy t then executeBlock fuel conseq σ1 sid .vnull
          else execElifs fuel elifs alt σ1 sid
      | .whileStmt test body =>
          (whileLoop fuel test body σ sid).bind fun _ σ1 => .ok .undef σ1
      | .forStmt it startE stopE body =>
          (evaluate fuel startE σ sid).bind fun sv σ1 =>
          (evaluate fuel stopE σ1 sid).bind fun ev σ2 =>
          (forLoop fuel it (toNumber sv) (toNumber ev) body σ2 sid).bind
            fun _ σ3 => .ok .undef σ3
      | .returnStmt valueE =>
          (evaluate fuel valueE σ sid).bind fun rv σ1 =>
          .ok .undef (scopeSet σ1 sid "__ret__" rv)
      | .breakStmt => .ok .undef (scopeSet σ sid "__break__" (.bool true))
      | .continueStmt => .ok .undef (scopeSet σ sid "__continue__" (.bool true))
      | .exprStmt e => evaluate fuel e σ sid
  termination_by structural fuel s σ sid => fuel

/-- The `elif` chain and `else` of an `IfStatement`. -/
def execElifs : Nat → List (Expr × List Stmt) → Option (List Stmt) → St →
    Nat → Res Value
  | fuel, [], alt, σ, sid =>
      (match alt with
       | some a =>
           match fuel with
           | 0 => .timeout
           | f + 1 => executeBlock f a σ sid .vnull
       | none => .ok .undef σ)
  | 0, _ :: _, _, _, _ => .timeout
  | fuel + 1, (t, body) :: rest, alt, σ, sid =>
      (evaluate fuel t σ sid).bind fun tv σ1 =>
      if truthy tv then executeBlock fuel body σ1 sid .vnull
      else execElifs fuel rest alt σ1 sid
  termination_by structural fuel es alt σ sid => fuel

/-- The loop of `WhileStatement`: after each body run the sentinels in the
loop scope's own map are inspected — `__ret__` ends the loop (left in
place), `__break__` is deleted and ends the loop, `__continue__` is deleted
and the loop proceeds. -/
def whileLoop : Nat → Expr → List Stmt → St → Nat → Res Value
  | 0, _, _, _, _ => .timeout
  | fuel + 1, test, body, σ, sid =>
      (evaluate fuel test σ sid).bind fun t σ1 =>
      if ¬ truthy t then .ok .undef σ1
      else
        (executeBlock fuel body σ1 sid .vnull).bind fun _ σ2 =>
        let f := (frameAt σ2 sid).values
        if mapHas f "__ret__" then .ok .undef σ2
        else if mapHas f "__break__" then
          .ok .undef (scopeDelete σ2 sid "__break__")
        else
          whileLoop fuel test body
            (if mapHas f "__continue__" then scopeDelete σ2 sid "__continue__"
             else σ2) sid
  termination_by structural fuel test body σ sid => fuel

/-- The loop of `ForStatement` (`for (let i = start; i <= end; i++)`):
only the `__ret__` sentinel is inspected after the body. -/
def forLoop : Nat → String → JNum → JNum → List Stmt → St → Nat → Res Value
  | 0, _, _, _, _, _, _ => .timeout
  | fuel + 1, it, i, stop, body, σ, sid =>
      if JNum.le i stop then
        (executeBlock fuel body (scopeSet σ sid it (.num i)) sid .vnull).bind
          fun _ σ2 =>
        if mapHas (frameAt σ2 sid).values "__ret__" then .ok .undef σ2
        else forLoop fuel it (JNum.add i (.q 1)) stop body σ2 sid
      else .ok .undef σ
  termination_by structural fuel it i stop body σ sid => fuel

/-- `Interpreter.executeBlock(stmts, scope)` with the accumulated statement
result (`let res = null`): after each statement the scope's own map is
checked for `__ret__` (return its chained value), `__break__` and
`__continue__` (stop executing the remaining statements). -/
def executeBlock : Nat → List Stmt → St → Nat → Value → Res Value
  | _, [], σ, _, res => .ok res σ
  | 0, _ :: _, _, _, _ => .timeout
  | fuel + 1, s :: rest, σ, sid, _ =>
      (executeStatement fuel s σ sid).bind fun res σ1 =>
      let f := (frameAt σ1 sid).values
      if mapHas f "__ret__" then .ok (scopeGet σ1 sid "__ret__") σ1
      else if mapHas f "__break__" then .ok res σ1
      else if mapHas f "__continue__" then .ok res σ1
      else executeBlock fuel rest σ1 sid res
  termination_by structural fuel ss σ sid res => fuel

end

/-- The state created by the `Interpreter` constructor with no external
globals: frame 0 is `this.globals`, holding the built-ins. -/
def initSt : St :=
  ⟨[⟨[("print", .builtin "print"), ("activateCanvas", .builtin "activateCanvas")],
    none⟩], [], []⟩

/-- `Interpreter.run(ast)`: execute the program body in the globals frame. -/
def run (fuel : Nat) (prog : Program) (σ : St) : Res Value :=
  executeBlock fuel prog σ 0 .vnull

/-- Tokenize, parse and run a source string on state `σ`. -/
def runSrc (fuel : Nat) (src : String) (σ : St) : Res Value :=
  match Parser.parse (Lexer.tokenize src) with
  | .ok prog => run fuel prog σ
  | .error e => .err ("ParseError: " ++ e)

/-- The final value of a global after running `src` from a fresh
interpreter. -/
def finalVar (fuel : Nat) (src : String) (name : String) : Option Value :=
  match runSrc fuel src initSt with
  | .ok _ σ => some (scopeGet σ 0 name)
  | _ => none

/-! ## Claim-support definitions -/

/-- The value a compound assignment computes when the current value is
taken to be `0` (the claim's reading of `scope.get(name) || 0` for an
absent binding). -/
def compoundZero (op : String) (v : Value) : Value :=
  if op = "+=" then jsAdd (.num (.q 0)) v
  else if op = "-=" then .num (JNum.sub (.q 0) (toNumber v))
  else if op = "*=" then .num (JNum.mul (.q 0) (toNumber v))
  else if op = "/=" then .num (JNum.div (.q 0) (toNumber v))
  else v

/-- `Base` with `x = a`; `Child` inheriting from `Base`; then `Base`
redefined with `x = b` — the parent "mutation" expressible in the
language. -/
def c7prog (a b : JNum) : Program :=
  [.objDef "Base" none [.assign "x" "=" (.lit (.num a))],
   .objDef "Child" (some "Base") [],
   .objDef "Base" none [.assign "x" "=" (.lit (.num b))]]

/-- A fresh interpreter whose `eval` cache has been seeded for the exact
text `"1 + 2"` with a program computing `99` instead of the parse of that
text. -/
def c8seeded : St :=
  { initSt with evalCache := [("1 + 2", [.exprStmt (.lit (.num (.q 99)))])] }

/-- `z = eval("x = 5\nx + 1")`: an `eval` of a two-statement mini-program
(built as an AST because a source-level string literal cannot span lines). -/
def c8blockProg : Program :=
  [.assign "z" "=" (.evalCall (.lit (.str "x = 5\nx + 1")))]

/-- The globals state after a top-level `return = 42` has run. -/
def c10polluted : St :=
  match runSrc 50 "return = 42" initSt with
  | .ok _ σ => σ
  | _ => initSt

/-- Number of tokens satisfying `p`. -/
def countTok (p : Tok → Bool) (ts : List Tok) : Nat := (ts.filter p).length

/-- Is the token an INDENT? -/
def isIndentTok : Tok → Bool
  | .INDENT _ _ => true
  | _ => false

/-- Is the token a DEDENT? -/
def isDedentTok : Tok → Bool
  | .DEDENT _ => true
  | _ => false

/-! ## Scope-chain lemmas (shared) -/

theorem mapHas_eq_isSome (m : List (String × Value)) (k : String) :
    mapHas m k = (mapGet m k).isSome := by
  induction m with
  | nil => rfl
  | cons p rest ih =>
      obtain ⟨k', v⟩ := p
      by_cases h : k' = k <;> simp [mapHas, mapGet, h, ih]

theorem scopeGetAux_eq_boundFrame (fuel : Nat) (σ : St) (sid : Nat)
    (name : String) :
    scopeGetAux fuel σ sid name =
      match boundFrameAux fuel σ sid name with
      | some fid => (mapGet (frameAt σ fid).values name).getD .undef
      | none => .undef := by
  induction fuel generalizing sid with
  | zero => rfl
  | succ f ih =>
      simp only [scopeGetAux, boundFrameAux, mapHas_eq_isSome]
      cases hg : mapGet (frameAt σ sid).values name with
      | some v => simp [hg]
      | none =>
          simp only [hg, Option.isSome_none, Bool.false_eq_true, if_false]
          cases hp : (frameAt σ sid).parent with
          | some p => simpa using ih p
          | none => rfl

theorem scopeAssignAux_eq_boundFrame (fuel : Nat) (σ : St) (sid : Nat)
    (name : String) (v : Value) :
    scopeAssignAux fuel σ sid name v =
      match boundFrameAux fuel σ sid name with
      | some fid =>
          (true, setFrameValues σ fid (mapSet (frameAt σ fid).values name v))
      | none => (false, σ) := by
  induction fuel generalizing sid with
  | zero => rfl
  | succ f ih =>
      simp only [scopeAssignAux, boundFrameAux]
      cases hh : mapHas (frameAt σ sid).values name with
      | true => simp [hh]
      | false =>
          simp only [hh, Bool.false_eq_true, if_false]
          cases hp : (frameAt σ sid).parent with
          | some p => simpa using ih p
          | none => rfl

/-! ## Indentation-balance lemmas (for C6) -/

theorem countTok_cons (p : Tok → Bool) (a : Tok) (l : List Tok) :
    countTok p (a :: l) = (if p a then 1 else 0) + countTok p l := by
  by_cases h : p a <;> simp [countTok, List.filter_cons, h, Nat.add_comm]

theorem countTok_cons_true {p : Tok → Bool} {a : Tok} {l : List Tok}
    (h : p a = true) : countTok p (a :: l) = 1 + countTok p l := by
  simp [countTok_cons, h]

theorem countTok_cons_false {p : Tok → Bool} {a : Tok} {l : List Tok}
    (h : p a = false) : countTok p (a :: l) = countTok p l := by
  simp [countTok_cons, h]

theorem countTok_append (p : Tok → Bool) (l1 l2 : List Tok) :
    countTok p (l1 ++ l2) = countTok p l1 + countTok p l2 := by
  simp [countTok, List.filter_append]

theorem countTok_nil (p : Tok → Bool) : countTok p [] = 0 := rfl

theorem mkToken_not_structural (val : List Char) (ln : Nat) :
    isIndentTok (mkToken val ln) = false ∧ isDedentTok (mkToken val ln) = false := by
  unfold mkToken
  split_ifs <;> exact ⟨rfl, rfl⟩

/-- `tokenizeLine` never emits INDENT or DEDENT tokens. -/
theorem scanLine_no_structural (fuel : Nat) :
    ∀ (cs : List Char) (ln : Nat),
      countTok isIndentTok (scanLine fuel cs ln) = 0 ∧
      countTok isDedentTok (scanLine fuel cs ln) = 0 := by
  induction fuel with
  | zero => intro cs ln; exact ⟨rfl, rfl⟩
  | succ f ih =>
      intro cs ln
      simp only [scanLine]
      cases hm : matchToken cs with
      | some pr =>
          obtain ⟨val, rest⟩ := pr
          by_cases hc : isCommentTok val
          · simp [hc, countTok]
          · have hmk := mkToken_not_structural val ln
            have hrest := ih rest ln
            simp [hc, countTok_cons, hmk.1, hmk.2, hrest.1, hrest.2]
      | none =>
          cases cs with
          | nil => exact ⟨rfl, rfl⟩
          | cons c r => exact ih r ln

/-- `Lexer.tokenizeLine` never emits INDENT or DEDENT tokens. -/
theorem tokenizeLine_no_structural (cs : List Char) (ln : Nat) :
    countTok isIndentTok (Lexer.tokenizeLine cs ln) = 0 ∧
    countTok isDedentTok (Lexer.tokenizeLine cs ln) = 0 :=
  scanLine_no_structural cs.length cs ln

theorem popDedents_spec (ind ln : Nat) :
    ∀ stack : List Nat,
      countTok isIndentTok (Lexer.popDedents ind stack ln).1 = 0 ∧
      countTok isDedentTok (Lexer.popDedents ind stack ln).1 +
          (Lexer.popDedents ind stack ln).2.length = stack.length ∧
      (stack.getLast? = some 0 →
        (Lexer.popDedents ind stack ln).2.getLast? = some 0) := by
  intro stack
  induction stack with
  | nil => exact ⟨rfl, rfl, fun h => by simp at h⟩
  | cons top rest ih =>
      obtain ⟨ih1, ih2, ih3⟩ := ih
      by_cases h : ind < top
      · simp only [Lexer.popDedents, h, if_true]
        refine ⟨?_, ?_, ?_⟩
        · rw [countTok_cons]; simp [isIndentTok, ih1]
        · rw [countTok_cons]; simp only [isDedentTok, if_true,
            List.length_cons]
          omega
        · intro hlast
          cases rest with
          | nil =>
              simp only [List.getLast?_singleton, Option.some.injEq] at hlast
              omega
          | cons y t =>
              rw [List.getLast?_cons_cons] at hlast
              exact ih3 hlast
      · simp only [Lexer.popDedents, h, if_false]
        exact ⟨rfl, by simp [countTok], fun h => h⟩

theorem lexLines_spec :
    ∀ (lines : List (List Char)) (n : Nat) (stack : List Nat),
      countTok isIndentTok (Lexer.lexLines lines n stack).1 + stack.length =
        countTok isDedentTok (Lexer.lexLines lines n stack).1 +
          (Lexer.lexLines lines n stack).2.length ∧
      (stack.getLast? = some 0 →
        (Lexer.lexLines lines n stack).2.getLast? = some 0) := by
  intro lines
  induction lines with
  | nil => intro n stack; exact ⟨by simp [Lexer.lexLines, countTok], fun h => h⟩
  | cons line rest ih =>
      intro n stack
      by_cases hb : Lexer.blankOrComment line
      · simpa only [Lexer.lexLines, hb, if_true] using ih (n + 1) stack
      · simp only [Lexer.lexLines, hb, Bool.false_eq_true, if_false]
        have hl1 := (tokenizeLine_no_structural (Lexer.trimList line) n).1
        have hl2 := (tokenizeLine_no_structural (Lexer.trimList line) n).2
        by_cases hi : stack.headD 0 < Lexer.indentWidth line
        · simp only [hi, if_true]
          obtain ⟨ih1, ih2⟩ := ih (n + 1) (Lexer.indentWidth line :: stack)
          constructor
          · simp only [countTok_append, countTok_cons, countTok_nil, hl1, hl2,
              isIndentTok, isDedentTok, List.length_cons] at ih1 ⊢
            simp only [if_true, Bool.false_eq_true, if_false] at ih1 ⊢
            omega
          · intro hlast
            apply ih2
            cases stack with
            | nil => simp at hlast
            | cons a t => rw [List.getLast?_cons_cons]; exact hlast
        · simp only [hi, if_false]
          obtain ⟨p1, p2, p3⟩ := popDedents_spec (Lexer.indentWidth line) n stack
          obtain ⟨ih1, ih2⟩ :=
            ih (n + 1) (Lexer.popDedents (Lexer.indentWidth line) stack n).2
          constructor
          · simp only [countTok_append, countTok_cons, countTok_nil, hl1, hl2,
              isIndentTok, isDedentTok, p1] at ih1 ⊢
            simp only [if_true, Bool.false_eq_true, if_false] at ih1 ⊢
            omega
          · intro hlast
            exact ih2 (p3 hlast)

theorem drain_spec :
    ∀ stack : List Nat,
      countTok isIndentTok (Lexer.drain stack).1 = 0 ∧
      countTok isDedentTok (Lexer.drain stack).1 +
          (Lexer.drain stack).2.length = stack.length ∧
      (stack.getLast? = some 0 → (Lexer.drain stack).2 = [0]) := by
  intro stack
  induction stack with
  | nil => exact ⟨rfl, rfl, fun h => by simp at h⟩
  | cons x tail ih =>
      cases tail with
      | nil =>
          refine ⟨rfl, rfl, ?_⟩
          intro h
          simp only [List.getLast?_singleton, Option.some.injEq] at h
          simp [Lexer.drain, h]
      | cons y restt =>
          obtain ⟨i1, i2, i3⟩ := ih
          simp only [Lexer.drain]
          refine ⟨?_, ?_, ?_⟩
          · rw [countTok_cons_false rfl]; exact i1
          · rw [countTok_cons_true rfl, List.length_cons]
            omega
          · intro h
            rw [List.getLast?_cons_cons] at h
            exact i3 h

/-! ## Token-scan lemmas (for C3) -/

theorem findQuote_none {cs : List Char} (h : '"' ∉ cs) : findQuote cs = none := by
  induction cs with
  | nil => rfl
  | cons c r ih =>
      simp only [List.mem_cons, not_or] at h
      obtain ⟨h1, h2⟩ := h
      simp only [findQuote, ih h2, if_neg (Ne.symm h1)]

theorem matchToken_eq_none_of (cs : List Char)
    (h1 : matchComment cs = none) (h2 : matchBoxed cs = none)
    (h3 : matchStringLit cs = none) (h4 : matchObjIdent cs = none)
    (h5 : matchTwoChar cs = none) (h6 : matchIdent cs = none)
    (h7 : matchDigits cs = none) (h8 : matchSymbol cs = none) :
    matchToken cs = none := by
  unfold matchToken
  rw [h1, h2, h3, h4, h5, h6, h7]
  exact h8

theorem matchStringLit_open_quote {cs : List Char} (h : '"' ∉ cs) :
    matchStringLit ('"' :: cs) = none := by
  show (match findQuote cs with
        | some (a, b) => some ('"' :: a ++ ['"'], b)
        | none => none) = none
  rw [findQuote_none h]

theorem matchObjIdent_open_hash {b : Char} {r : List Char} (h : '#' ∉ r) :
    matchObjIdent ('#' :: b :: r) = none := by
  show (if isAlphaU b then
          (match r.dropWhile isAlnumU with
           | '#' :: rest => some ('#' :: b :: r.takeWhile isAlnumU ++ ['#'], rest)
           | _ => none)
        else none) = none
  by_cases hab : isAlphaU b
  · rw [if_pos hab]
    split
    · next rest heq =>
        exfalso
        have hm : '#' ∈ r.dropWhile isAlnumU := by
          rw [heq]; exact List.mem_cons_self _ _
        exact h ((List.dropWhile_sublist isAlnumU).mem hm)
    · rfl
  · rw [if_neg hab]

/-- No regex alternative matches at an unterminated `"` delimiter. -/
theorem matchToken_quote_none {cs : List Char} (h : '"' ∉ cs) :
    matchToken ('"' :: cs) = none := by
  cases cs with
  | nil => rfl
  | cons b r =>
      exact matchToken_eq_none_of _ rfl rfl (matchStringLit_open_quote h) rfl
        rfl rfl rfl rfl

/-- No regex alternative matches at an unterminated `#` delimiter. -/
theorem matchToken_hash_none {cs : List Char} (h : '#' ∉ cs) :
    matchToken ('#' :: cs) = none := by
  cases cs with
  | nil => rfl
  | cons b r =>
      simp only [List.mem_cons, not_or] at h
      exact matchToken_eq_none_of _ rfl rfl rfl
        (matchObjIdent_open_hash h.2) rfl rfl rfl rfl

/-! ## Claim theorems -/

/-- C3 counterexample: the claim says tokenization of an input with an
unterminated string or object-identifier delimiter fails with a fatal
LexError and never silently drops characters.  The lexer has no error path
at all: `"abc` tokenizes exactly like `abc` — the opening quote is silently
dropped — and likewise `#abc`. -/
theorem C3_unterminated_delimiters_lex_without_error :
    Lexer.tokenize "\"abc" = Lexer.tokenize "abc" ∧
    Lexer.tokenize "\"abc" = [.IDENTIFIER "abc" 1, .NEWLINE 1] ∧
    Lexer.tokenize "#abc" = [.IDENTIFIER "abc" 1, .NEWLINE 1] :=
  ⟨rfl, rfl, rfl⟩

/-- C3 (amended): tokenization never fails on a malformed token; an
unterminated `"` or `#` delimiter is silently skipped by the scanner — the
line tokenizes exactly as if the offending delimiter character were absent. -/
theorem C3_malformed_delimiter_silently_dropped :
    (∀ (cs : List Char) (ln : Nat), '"' ∉ cs →
       Lexer.tokenizeLine ('"' :: cs) ln = Lexer.tokenizeLine cs ln) ∧
    (∀ (cs : List Char) (ln : Nat), '#' ∉ cs →
       Lexer.tokenizeLine ('#' :: cs) ln = Lexer.tokenizeLine cs ln) := by
  constructor
  · intro cs ln h
    show scanLine (cs.length + 1) ('"' :: cs) ln = Lexer.tokenizeLine cs ln
    simp only [scanLine, matchToken_quote_none h]
    rfl
  · intro cs ln h
    show scanLine (cs.length + 1) ('#' :: cs) ln = Lexer.tokenizeLine cs ln
    simp only [scanLine, matchToken_hash_none h]
    rfl

/-- Witness for the amended C3 at a concrete input. -/
theorem C3_malformed_delimiter_silently_dropped_witness :
    Lexer.tokenizeLine ('"' :: "abc".toList) 1 = Lexer.tokenizeLine "abc".toList 1 ∧
    Lexer.tokenizeLine ('#' :: "abc".toList) 1 = Lexer.tokenizeLine "abc".toList 1 :=
  ⟨C3_malformed_delimiter_silently_dropped.1 "abc".toList 1 (by decide),
   C3_malformed_delimiter_silently_dropped.2 "abc".toList 1 (by decide)⟩

/-- C1: the spec claims a `Break` signal is consumed by the nearest
enclosing loop and ends that loop for every loop form.  The while-loop does
consume and obey it (`x` stops at 1), but `ForStatement` inspects only the
`__ret__` sentinel: a `break` inside a range-for does **not** end the loop —
each remaining iteration still runs (cut short after its first statement),
so `x` reaches 3, and the unconsumed `__break__` sentinel is left behind in
the scope. -/
theorem C1_break_in_for_loop_not_consumed :
    finalVar 100 "x = 0\nwhile x < 3\n    x += 1\n    break" "x" =
      some (.num (.q 1)) ∧
    finalVar 100 "for i = 1 to 3\n    x += 1\n    break" "x" =
      some (.num (.q 3)) ∧
    finalVar 100 "for i = 1 to 3\n    x += 1\n    break" "__break__" =
      some (.bool true) :=
  ⟨rfl, rfl, rfl⟩

/-- C2: the spec claims a missing argument binds to null/undefined and that
reading such a parameter inside the body yields that value rather than an
error.  The code does bind the parameter to JS `undefined` (and does ignore
extra arguments — second conjunct), but `Identifier` evaluation throws
`Undefined: <name>` whenever the looked-up value is `undefined`, so reading
the missing parameter raises an error instead. -/
theorem C2_missing_arg_read_is_error :
    runSrc 100 "function f(a, b)\n    return = b\nf(1)" initSt =
      .err "Undefined: b" ∧
    finalVar 100 "function f(a)\n    return = a\ny = f(7, 8)" "y" =
      some (.num (.q 7)) :=
  ⟨rfl, rfl⟩

/-- C4: binary `and` evaluates its right operand only when the left is
truthy, and `or` only when the left is falsy — literal short-circuit: the
result and the final state are those of the left operand alone, for *every*
right-operand expression.  The concrete scenarios run
`False and f()` / `True or f()` where `f` would mutate `x`; `x` stays 0. -/
theorem C4_short_circuit_and_or :
    (∀ (fuel : Nat) (l r : Expr) (σ σ1 : St) (sid : Nat) (v : Value),
       evaluate fuel l σ sid = .ok v σ1 → truthy v = false →
       evaluate (fuel + 1) (.bin l "and" r) σ sid = .ok v σ1) ∧
    (∀ (fuel : Nat) (l r : Expr) (σ σ1 : St) (sid : Nat) (v : Value),
       evaluate fuel l σ sid = .ok v σ1 → truthy v = true →
       evaluate (fuel + 1) (.bin l "or" r) σ sid = .ok v σ1) ∧
    (finalVar 100 "x = 0\nfunction f()\n    x = 1\n    return = 2\ny = False and f()"
        "x" = some (.num (.q 0)) ∧
     finalVar 100 "x = 0\nfunction f()\n    x = 1\n    return = 2\ny = False and f()"
        "y" = some (.bool false)) ∧
    (finalVar 100 "x = 0\nfunction f()\n    x = 1\n    return = 2\ny = True or f()"
        "x" = some (.num (.q 0)) ∧
     finalVar 100 "x = 0\nfunction f()\n    x = 1\n    return = 2\ny = True or f()"
        "y" = some (.bool true)) := by
  refine ⟨?_, ?_, ⟨rfl, rfl⟩, ⟨rfl, rfl⟩⟩
  · intro fuel l r σ σ1 sid v h ht
    simp [evaluate, h, Res.bind, ht]
  · intro fuel l r σ σ1 sid v h ht
    simp [evaluate, h, Res.bind, ht]

/-- Witness for C4 at concrete inputs. -/
theorem C4_short_circuit_and_or_witness :
    evaluate 2 (.bin (.lit (.bool false)) "and" (.ident "boom")) initSt 0 =
      .ok (.bool false) initSt ∧
    evaluate 2 (.bin (.lit (.bool true)) "or" (.ident "boom")) initSt 0 =
      .ok (.bool true) initSt :=
  ⟨C4_short_circuit_and_or.1 1 _ _ _ _ 0 _ rfl rfl,
   C4_short_circuit_and_or.2.1 1 _ _ _ _ 0 _ rfl rfl⟩

/-- C5: lookup and assignment walk the scope chain outward from the
innermost frame (`boundFrameAux` is that walk): lookup returns the nearest
binding (or `undefined`); executing an assignment mutates the binding in
the nearest frame that has one, and otherwise creates the binding in the
innermost frame. -/
theorem C5_scope_chain_assign_lookup :
    (∀ (σ : St) (sid : Nat) (name : String),
       scopeGet σ sid name =
         match boundFrameAux (sid + 1) σ sid name with
         | some fid => (mapGet (frameAt σ fid).values name).getD .undef
         | none => .undef) ∧
    (∀ (fuel : Nat) (σ : St) (sid : Nat) (name : String) (lv : Lit),
       executeStatement (fuel + 2) (.assign name "=" (.lit lv)) σ sid =
         .ok .undef
           (match boundFrameAux (sid + 1) σ sid name with
            | some fid =>
                setFrameValues σ fid
                  (mapSet (frameAt σ fid).values name (litValue lv))
            | none => scopeSet σ sid name (litValue lv))) := by
  constructor
  · intro σ sid name
    exact scopeGetAux_eq_boundFrame (sid + 1) σ sid name
  · intro fuel σ sid name lv
    simp only [executeStatement, evaluate, Res.bind, scopeAssign,
      scopeAssignAux_eq_boundFrame]
    cases hb : boundFrameAux (sid + 1) σ sid name <;> simp [hb]

/-- C9: a compound assignment to a name with no binding anywhere in the
scope chain raises no error: the current value is taken to be `0`
(`scope.get(name) || 0` on an absent binding), the operator is applied to
`0`, and the binding is created in the innermost frame; concretely,
`x += 5` on an unbound `x` creates `x = 5`. -/
theorem C9_compound_assign_unbound_defaults_zero :
    (∀ (fuel : Nat) (σ : St) (sid : Nat) (name op : String) (lv : Lit),
       op ∈ ["+=", "-=", "*=", "/="] →
       boundFrameAux (sid + 1) σ sid name = none →
       executeStatement (fuel + 2) (.assign name op (.lit lv)) σ sid =
         .ok .undef (scopeSet σ sid name (compoundZero op (litValue lv)))) ∧
    finalVar 20 "x += 5" "x" = some (.num (.q 5)) := by
  refine ⟨?_, rfl⟩
  intro fuel σ sid name op lv hop hnone
  have hget : scopeGet σ sid name = .undef := by
    rw [scopeGet, scopeGetAux_eq_boundFrame, hnone]
  have hassign := scopeAssignAux_eq_boundFrame (sid + 1) σ sid name
  simp only [List.mem_cons, List.not_mem_nil, or_false] at hop
  rcases hop with rfl | rfl | rfl | rfl <;>
    simp [executeStatement, evaluate, Res.bind, hget, scopeAssign,
      hassign, hnone, compoundZero, truthy, toNumber]

/-- Witness for C9: `x += 5` on a fresh interpreter (where `x` is unbound
in the scope chain) creates `x` in the globals with value `5`. -/
theorem C9_compound_assign_unbound_witness :
    executeStatement 5 (.assign "x" "+=" (.lit (.num (.q 5)))) initSt 0 =
      .ok .undef (scopeSet initSt 0 "x" (compoundZero "+=" (.num (.q 5)))) :=
  C9_compound_assign_unbound_defaults_zero.1 3 initSt 0 "x" "+=" (.num (.q 5))
    (by simp) rfl

/-- C7: an object definition naming a parent seeds the new object with a
one-time shallow copy of the parent's current properties: redefining `Base`
afterwards leaves the already-created `Child` unchanged (first conjunct,
for arbitrary property values `a`, `b`); and the definition body runs in an
isolated frame with no parent, so touching an enclosing binding (`y`) is an
`Undefined` error (second conjunct). -/
theorem C7_object_copy_semantics :
    (∀ a b : JNum,
       match run 50 (c7prog a b) initSt with
       | .ok _ σf =>
           scopeGet σf 0 "Child" = .obj [("x", .num a)] ∧
           scopeGet σf 0 "Base" = .obj [("x", .num b)]
       | _ => False) ∧
    runSrc 50 "y = 5\n#O# = [\n    x = y\n]" initSt = .err "Undefined: y" :=
  ⟨fun _ _ => ⟨rfl, rfl⟩, rfl⟩

/-- C6: for every input string, the token sequence contains exactly as many
INDENT as DEDENT tokens, and the indent stack is back at its single base
level (`[0]`) by end of input — the end-of-input drain emits the trailing
DEDENTs even when the source omits them. -/
theorem C6_indent_dedent_balanced (input : String) :
    countTok isIndentTok (Lexer.tokenize input) =
      countTok isDedentTok (Lexer.tokenize input) ∧
    (Lexer.tokenizeWithStack input).2 = [0] := by
  obtain ⟨hl1, hl2⟩ := lexLines_spec (Lexer.splitLines input.toList) 1 [0]
  obtain ⟨hd1, hd2, hd3⟩ :=
    drain_spec (Lexer.lexLines (Lexer.splitLines input.toList) 1 [0]).2
  have hfin := hd3 (hl2 rfl)
  constructor
  · show countTok isIndentTok (Lexer.tokenizeWithStack input).1 =
      countTok isDedentTok (Lexer.tokenizeWithStack input).1
    unfold Lexer.tokenizeWithStack
    rw [countTok_append, countTok_append, hd1]
    rw [hfin] at hd2
    simp only [List.length_singleton, List.length_cons, List.length_nil] at hl1 hd2
    omega
  · exact hfin

/-- C8: `eval` stringifies its argument and consults an instance-scoped
cache keyed by the exact source text: a cache hit reuses the stored program
untouched (no re-parse, cache unchanged), a miss parses via the lexer and
parser and stores the result; a one-expression-statement program is then
evaluated as an expression in the *current* scope, anything else runs as a
block in the current scope yielding its last statement's result.  The
concrete scenarios: `eval("1 + 2")` is `3` and caches the parse; a seeded
cache entry for the same text is reused verbatim (yielding `99`); a
two-statement eval mutates the calling scope (`x = 5`) and returns the last
statement's value (`6`). -/
theorem C8_eval_cache_and_scope :
    (∀ (fuel : Nat) (σ : St) (sid : Nat) (code : String) (ast : Program),
       cacheGet σ.evalCache code = some ast →
       evaluate (fuel + 2) (.evalCall (.lit (.str code))) σ sid =
         runEvalAst (fuel + 1) ast σ sid) ∧
    (∀ (fuel : Nat) (σ : St) (sid : Nat) (code : String) (ast : Program),
       cacheGet σ.evalCache code = none →
       Parser.parse (Lexer.tokenize code) = .ok ast →
       evaluate (fuel + 2) (.evalCall (.lit (.str code))) σ sid =
         runEvalAst (fuel + 1) ast
           { σ with evalCache := σ.evalCache ++ [(code, ast)] } sid) ∧
    finalVar 100 "y = eval(\"1 + 2\")" "y" = some (.num (.q 3)) ∧
    (match runSrc 100 "y = eval(\"1 + 2\")" initSt with
     | .ok _ σf =>
         σf.evalCache =
           [("1 + 2",
             [.exprStmt (.bin (.lit (.num (.q 1))) "+" (.lit (.num (.q 2))))])]
     | _ => False) ∧
    (match runSrc 100 "y = eval(\"1 + 2\")" c8seeded with
     | .ok _ σf =>
         scopeGet σf 0 "y" = .num (.q 99) ∧ σf.evalCache = c8seeded.evalCache
     | _ => False) ∧
    (match run 100 c8blockProg initSt with
     | .ok _ σf =>
         scopeGet σf 0 "z" = .num (.q 6) ∧ scopeGet σf 0 "x" = .num (.q 5)
     | _ => False) := by
  refine ⟨?_, ?_, rfl, rfl, ⟨rfl, rfl⟩, ⟨rfl, rfl⟩⟩
  · intro fuel σ sid code ast h
    simp [evaluate, Res.bind, litValue, jsToString, h]
  · intro fuel σ sid code ast h hp
    simp [evaluate, Res.bind, litValue, jsToString, h, hp]

/-- Witness for C8 at concrete inputs: the seeded cache entry for the exact
text `"1 + 2"` is reused. -/
theorem C8_eval_cache_and_scope_witness :
    evaluate 7 (.evalCall (.lit (.str "1 + 2"))) c8seeded 0 =
      runEvalAst 6 [.exprStmt (.lit (.num (.q 99)))] c8seeded 0 :=
  C8_eval_cache_and_scope.1 5 c8seeded 0 "1 + 2"
    [.exprStmt (.lit (.num (.q 99)))] rfl

/-- C10: a top-level `return` stores the `__ret__` sentinel in the
persistent globals frame and nothing removes it; since `executeBlock`
checks the sentinel after every statement, any later `run` on the same
interpreter executes at most its first statement — whatever the rest of the
program is — and then returns the stashed value.  Concretely, after
`return = 42`, running `x = 1; x = 2` yields `42` with `x = 1` (the second
statement never executes). -/
theorem C10_return_sentinel_persists :
    runSrc 50 "return = 42" initSt = .ok (.num (.q 42)) c10polluted ∧
    mapHas (frameAt c10polluted 0).values "__ret__" = true ∧
    scopeGet c10polluted 0 "__ret__" = .num (.q 42) ∧
    (∀ (fuel : Nat) (s : Stmt) (rest : List Stmt) (σ σ1 : St) (sid : Nat)
       (v : Value),
       executeStatement fuel s σ sid = .ok v σ1 →
       mapHas (frameAt σ1 sid).values "__ret__" = true →
       executeBlock (fuel + 1) (s :: rest) σ sid .vnull =
         .ok (scopeGet σ1 sid "__ret__") σ1) ∧
    (match runSrc 50 "x = 1\nx = 2" c10polluted with
     | .ok v σf => v = .num (.q 42) ∧ scopeGet σf 0 "x" = .num (.q 1)
     | _ => False) := by
  refine ⟨rfl, rfl, rfl, ?_, ⟨rfl, rfl⟩⟩
  intro fuel s rest σ σ1 sid v h hret
  simp [executeBlock, Res.bind, h, hret]

/-- Witness for C10 at concrete inputs: with the polluted globals, a
two-statement program executes only its first statement and returns the
stale `42`. -/
theorem C10_return_sentinel_persists_witness :
    executeBlock 6
        [.assign "x" "=" (.lit (.num (.q 1))), .assign "x" "=" (.lit (.num (.q 2)))]
        c10polluted 0 .vnull =
      .ok (scopeGet (scopeSet c10polluted 0 "x" (.num (.q 1))) 0 "__ret__")
        (scopeSet c10polluted 0 "x" (.num (.q 1))) :=
  C10_return_sentinel_persists.2.2.2.1 5 (.assign "x" "=" (.lit (.num (.q 1))))
    [.assign "x" "=" (.lit (.num (.q 2)))] c10polluted
    (scopeSet c10polluted 0 "x" (.num (.q 1))) 0 .undef rfl rfl

end Gilgamesh
